import Mathlib


/-!
Verification of the Reppo orchestrator core: a shallow embedding of
`src/solver_server.py` (the orchestrator: lifespan startup/shutdown, the
three router tools) and `src/local.py` (the local forwarding proxy),
together with the worker `src/sub_servers/adder_server.py`, and proofs of
the specification claims about them.

JSON values are modelled by the inductive `JValue`; Python dicts are
modelled as association lists with unique keys (insertion order, last
write wins, as Python dicts behave).
-/


/-- A JSON value, as produced by `response.json()` / passed around the
orchestrator.  Python `None` is `JValue.null`. -/
inductive JValue where
  | null : JValue
  | bool (b : Bool) : JValue
  | num (n : Int) : JValue
  | str (s : String) : JValue
  | arr (elems : List JValue) : JValue
  | obj (fields : List (String × JValue)) : JValue
deriving Repr

/-- Lookup of a key in the field list of a Python dict (`d[k]` / `d.get(k)`
returning the value when present). -/
def getKey? (fields : List (String × JValue)) (k : String) : Option JValue :=
  (fields.find? (fun p => p.1 == k)).map (fun p => p.2)

/-- Python `k in d` for a dict. -/
def hasKey (fields : List (String × JValue)) (k : String) : Bool :=
  fields.any (fun p => p.1 == k)

/-- Python `d.get(k)`: the value when present, `None` otherwise. -/
def getKeyD (fields : List (String × JValue)) (k : String) : JValue :=
  (getKey? fields k).getD JValue.null

/-- Python `set(d.keys()) == \x7b"result"\x7d`: every key is `"result"` and
there is at least one key. -/
def keysExactlyResult (fields : List (String × JValue)) : Bool :=
  fields.all (fun p => p.1 == "result") && fields.any (fun p => p.1 == "result")

/-- Python `isinstance(v, dict) and "structuredContent" in v`. -/
def isDictWithStructuredContent (v : JValue) : Bool :=
  match v with
  | JValue.obj fields => hasKey fields "structuredContent"
  | _ => false

/-- The response unwrapping of `_call_orchestrator` (src/local.py lines
112-119), applied to `data.get("result")`: if the value is a dict carrying
`"structuredContent"`, replace it by that field; if the replacement is a
dict whose key set is exactly `\x7b"result"\x7d`, unwrap once more.  Any
other value is returned unchanged. -/
def unwrapResult (result : JValue) : JValue :=
  match result with
  | JValue.obj fields =>
    match getKey? fields "structuredContent" with
    | some inner =>
      match inner with
      | JValue.obj innerFields =>
        if keysExactlyResult innerFields then
          (getKey? innerFields "result").getD (JValue.obj innerFields)
        else JValue.obj innerFields
      | v => v
    | none => JValue.obj fields
  | v => v

/-- src/local.py line 38: the fixed orchestrator endpoint. -/
def ORCHESTRATOR_URL : String := "http://localhost:8000/mcp"

/-- The outcome of the single `requests.post` performed by
`_call_orchestrator`: either some `requests.exceptions.RequestException`
(connection refused, timeout, non-success status raised by
`raise_for_status`) carrying its message, or a successful response whose
JSON body is the given object. -/
inductive TransportOutcome where
  | requestException (exc : String) : TransportOutcome
  | response (data : List (String × JValue)) : TransportOutcome

mutual

/-- A rendering of `json.dumps` (default separators) sufficient for the
strings appearing in this development; string escaping is not modelled
(none of the strings involved need escapes). -/
def jsonDumps : JValue → String
  | JValue.null => "null"
  | JValue.bool true => "true"
  | JValue.bool false => "false"
  | JValue.num n => toString n
  | JValue.str s => "\"" ++ s ++ "\""
  | JValue.arr elems => "[" ++ String.intercalate ", " (jsonDumpsList elems) ++ "]"
  | JValue.obj fields =>
      "\x7b" ++ String.intercalate ", " (jsonDumpsFields fields) ++ "\x7d"

/-- Rendering of the elements of an array, as `json.dumps` does. -/
def jsonDumpsList : List JValue → List String
  | [] => []
  | v :: vs => jsonDumps v :: jsonDumpsList vs

/-- Rendering of the members of an object, as `json.dumps` does. -/
def jsonDumpsFields : List (String × JValue) → List String
  | [] => []
  | p :: ps => ("\"" ++ p.1 ++ "\": " ++ jsonDumps p.2) :: jsonDumpsFields ps

end

/-- The helper `_call_orchestrator` (src/local.py lines 96-120) after the POST has
completed with the given outcome: a transport failure raises a
RuntimeError naming the endpoint and the cause; a response carrying an
`"error"` field raises a RuntimeError with the dumped error; otherwise the
unwrapped `result` field is returned. -/
def callOrchestrator : TransportOutcome → Except String JValue
  | TransportOutcome.requestException exc =>
      Except.error ("Failed to communicate with orchestrator at " ++ ORCHESTRATOR_URL ++ ": " ++ exc)
  | TransportOutcome.response data =>
      if hasKey data "error" then
        Except.error ("Orchestrator error: " ++ jsonDumps (getKeyD data "error"))
      else
        Except.ok (unwrapResult (getKeyD data "result"))

/-- Whether the remote call failed: the transport raised, or the JSON-RPC
response carries an `"error"` member. -/
def TransportOutcome.failed : TransportOutcome → Bool
  | TransportOutcome.requestException _ => true
  | TransportOutcome.response data => hasKey data "error"

/-- Does `pat` occur as a contiguous run in the character list? -/
def listContains (pat : List Char) : List Char → Bool
  | [] => pat.isEmpty
  | c :: cs => pat.isPrefixOf (c :: cs) || listContains pat cs

/-- Substring containment on strings (used to state that error messages
mention the endpoint / the cause). -/
def strContains (s pat : String) : Bool :=
  listContains pat.data s.data

/-- Whether the inner unwrap of `_call_orchestrator` applies to a value:
it must be a dict whose key set is exactly `\x7b"result"\x7d`. -/
def innerUnwrapApplies (v : JValue) : Bool :=
  match v with
  | JValue.obj fields => keysExactlyResult fields
  | _ => false

/-- The JSON-RPC body of a failed orchestrator response used as a
counterexample input: it carries an `"error"` member. -/
def jsonRpcErrorData : List (String × JValue) :=
  [("jsonrpc", JValue.str "2.0"),
   ("id", JValue.str "local-wrapper-request"),
   ("error", JValue.obj [("code", JValue.num (-32601)), ("message", JValue.str "Method not found")])]

/-- A tool as listed in a worker's catalog during the capability
handshake: raw (unqualified) name, description, input schema. -/
structure ToolDef where
  rawName : String
  description : Option String
  inputSchema : JValue

/-- A connected sub-server: its self-reported implementation name
(`server_info.name`) and its tool catalog. -/
structure Worker where
  name : String
  tools : List ToolDef

/-- The hook `name_hook` (src/solver_server.py lines 60-61): the qualified name of a
component is `f"\x7bserver_info.name\x7d::\x7bcomponent_name\x7d"`. -/
def name_hook (component_name : String) (server_info_name : String) : String :=
  server_info_name ++ "::" ++ component_name

/-- The `ClientSessionGroup` after startup: one connected worker per
launched sub-server. -/
structure SessionGroup where
  workers : List Worker

/-- Modelled from the spec: the session group's aggregated tool registry
(`session_group.tools`, spec section 4.3 `register`): every tool of every
connected worker, keyed by the qualified name produced by `name_hook`,
carrying its owning worker's name and the tool descriptor.  The
aggregation itself happens inside the MCP client library; the hook it
applies is `name_hook` from src/solver_server.py. -/
def toolEntries (g : SessionGroup) : List (String × String × ToolDef) :=
  (g.workers.map (fun w => w.tools.map
    (fun t => (name_hook t.rawName w.name, w.name, t)))).flatten

/-- A `CallToolResult` as returned by a worker session: content blocks,
the structured payload, and the error flag. -/
structure CallToolResult where
  content : List JValue
  structuredContent : JValue
  isError : Bool

/-- Modelled from the spec: `Session.invoke` (spec section 4.2) for the
whole group, as a function of the owning worker's name and the raw tool
name; the claims quantify over it. -/
def Invoke : Type := String → String → JValue → CallToolResult

/-- The `ToolInfo` model of src/solver_server.py lines 19-22. -/
structure ToolInfo where
  name : String
  description : Option String
  input_schema : JValue

/-- Python `s.startswith(pfx)`. -/
def strStartsWith (s pfx : String) : Bool :=
  pfx.data.isPrefixOf s.data

/-- The handler core of `find_mcp_tools` (src/solver_server.py lines 158-172) after context
extraction: filter the registry by the prefix `server_name ++ "::"`, build
`ToolInfo` records from the matching tools, and raise `ValueError` when
nothing matched. -/
def find_mcp_tools (g : SessionGroup) (server_name : String) : Except String (List ToolInfo) :=
  let pfx := server_name ++ "::"
  let found_tools := ((toolEntries g).filter (fun e => strStartsWith e.1 pfx)).map
    (fun e => ToolInfo.mk e.2.2.rawName e.2.2.description e.2.2.inputSchema)
  if found_tools.isEmpty then
    Except.error ("No server found with name \x27" ++ server_name ++ "\x27 or it has no tools.")
  else Except.ok found_tools

/-- The handler core of `use_mcp_tool` (src/solver_server.py lines 201-211) after context
extraction: build `qualified_tool_name`, test membership in the group's
registry, raise `ValueError` when absent, otherwise dispatch to the
session owning that registry entry and return the `structuredContent` of
its `CallToolResult` (dropping the content blocks and error flag of the
envelope).  The first component of the returned pair records which
worker's session was invoked. -/
def use_mcp_tool (g : SessionGroup) (invoke : Invoke) (server_name tool_name : String)
    (arguments : JValue) : Except String (String × JValue) :=
  let qualified_tool_name := server_name ++ "::" ++ tool_name
  match (toolEntries g).find? (fun e => e.1 == qualified_tool_name) with
  | none => Except.error
      ("Tool \x27" ++ tool_name ++ "\x27 not found on server \x27" ++ server_name ++ "\x27.")
  | some e => Except.ok (e.2.1, (invoke e.2.1 e.2.2.rawName arguments).structuredContent)

/-- A minimal tool used by the witnesses. -/
def pingTool : ToolDef := ToolDef.mk "ping" none JValue.null

/-- Two distinct workers exposing a tool with the same raw name. -/
def alphaWorker : Worker := Worker.mk "alpha" [pingTool]

/-- Second worker with the same raw tool name. -/
def betaWorker : Worker := Worker.mk "beta" [pingTool]

/-- Group with two workers whose raw tool names collide. -/
def twoWorkerGroup : SessionGroup := SessionGroup.mk [alphaWorker, betaWorker]

/-- A session invoke that returns an empty structured result. -/
def nullInvoke : Invoke := fun _ _ _ => CallToolResult.mk [] JValue.null false

/-- The tool `add` (src/sub_servers/adder_server.py lines 7-10): adds two integers
and returns the sum. -/
def add (a b : Int) : Int := a + b

/-- Integer argument extraction from a JSON arguments object. -/
def getIntArg (args : JValue) (k : String) : Option Int :=
  match args with
  | JValue.obj fields =>
    match getKey? fields k with
    | some (JValue.num n) => some n
    | _ => none
  | _ => none

/-- Modelled from the spec: the adder worker's session-level `invoke`
(spec section 4.2); the worker's FastMCP framework binds the JSON
arguments `a` and `b` and returns the structured result of `add`, with an
error result for a malformed call.  The tool body itself is `add` from
src/sub_servers/adder_server.py. -/
def adderInvoke : Invoke := fun _ raw args =>
  if raw == "add" then
    match getIntArg args "a", getIntArg args "b" with
    | some a, some b => CallToolResult.mk [] (JValue.num (add a b)) false
    | _, _ => CallToolResult.mk [] JValue.null true
  else CallToolResult.mk [] JValue.null true

/-- The adder worker's catalog entry for `add`. -/
def addTool : ToolDef :=
  ToolDef.mk "add" (some "Adds two integers and returns the sum.") (JValue.obj [])

/-- A worker named "adder" exposing only `add`. -/
def adderWorker : Worker := Worker.mk "adder" [addTool]

/-- A session group with the adder worker connected. -/
def adderGroup : SessionGroup := SessionGroup.mk [adderWorker]

/-- A manifest entry for one worker (src/solver_server.py lines 48-59):
optional command (defaulting to "python"), argument list, optional
description. -/
structure ServerConfig where
  command : Option String
  args : List String
  description : Option String
deriving DecidableEq, Repr

/-- The `ServerInfo` model of src/solver_server.py lines 15-17. -/
structure ServerInfo where
  name : String
  description : Option String
deriving DecidableEq, Repr

/-- The core of `discover_mcp_servers` (src/solver_server.py lines
124-129): one `ServerInfo` per configured worker, with
`config.get("description")`. -/
def discover_mcp_servers (server_configs : List (String × ServerConfig)) : List ServerInfo :=
  server_configs.map (fun p => ServerInfo.mk p.1 p.2.description)

/-- The `AppContext` of src/solver_server.py lines 31-37: the session
group, the spawned sub-processes keyed by worker name (the Nat is the
pid), and the manifest-loaded server configs. -/
structure AppContext where
  session_group : SessionGroup
  sub_processes : List (String × Nat)
  server_configs : List (String × ServerConfig)

/-- Python dict insertion `d[k] = v`: overwrites the existing entry for
`k` in place, otherwise appends (dicts preserve insertion order). -/
def insertLastWins {α : Type} (m : List (String × α)) (k : String) (v : α) : List (String × α) :=
  if m.any (fun p => p.1 == k) then
    m.map (fun p => if p.1 == k then (k, v) else p)
  else m ++ [(k, v)]

/-- Python `json.loads` applied to a JSON object given as its textual sequence of
members: Python builds the dict member by member, a repeated key silently
overwriting the earlier value (no rejection). -/
def jsonLoadsObject {α : Type} (entries : List (String × α)) : List (String × α) :=
  entries.foldl (fun m p => insertLastWins m p.1 p.2) []

/-- Manifest loading as performed by `app_lifespan` (src/solver_server.py
lines 46-47): `json.loads(config_path.read_text())`, with no uniqueness
check on worker names; it never rejects an input. -/
def loadManifest (entries : List (String × ServerConfig)) :
    Except String (List (String × ServerConfig)) :=
  Except.ok (jsonLoadsObject entries)

/-- Process spawning at startup (src/solver_server.py lines 48-58): one
`subprocess.Popen` per configured worker, keyed by its manifest name; the
pid is modelled by the spawn position. -/
def spawnAll (cfgs : List (String × ServerConfig)) : List (String × Nat) :=
  cfgs.enum.map (fun p => (p.2.1, p.1))

/-- The startup of `app_lifespan` (src/solver_server.py lines 43-71): read the
manifest when the file exists (`none` models an absent file, yielding the
empty dict and hence no spawns and no connects), spawn one sub-process
per entry, connect the session group to each spawned server—
`connectedWorkers` gives, per launched entry, the worker session that
results from `connect_to_server`—and build the AppContext. -/
def app_lifespan_startup (manifestFile : Option (List (String × ServerConfig)))
    (connectedWorkers : String → ServerConfig → Worker) : AppContext :=
  let server_configs := match manifestFile with
    | none => []
    | some entries => jsonLoadsObject entries
  AppContext.mk
    (SessionGroup.mk (server_configs.map (fun p => connectedWorkers p.1 p.2)))
    (spawnAll server_configs)
    server_configs

/-- A dict-shaped lifespan context, as speculatively handled by the three
tool handlers: the optional members they probe for. -/
structure DictCtx where
  orchestrator_context : Option AppContext
  session_group : Option SessionGroup
  sub_processes : Option (List (String × Nat))
  server_configs : Option (List (String × ServerConfig))

/-- The possible runtime shapes of
`ctx.request_context.lifespan_context`: the AppContext that app_lifespan
yields, a dict, or some other value entirely. -/
inductive LifespanContext where
  | ofApp (c : AppContext) : LifespanContext
  | ofDict (d : DictCtx) : LifespanContext
  | other (descr : String) : LifespanContext

/-- The first-stage context resolution shared by the three handlers
(src/solver_server.py lines 101-112, 134-143, 177-186): a dict is probed
for `"orchestrator_context"`; failing that, `AppContext(**maybe_ctx)` is
attempted, which succeeds exactly when the three required fields are all
present; failing that the dict is kept as-is.  Non-dict values pass
through unchanged. -/
def resolveLifespanContext : LifespanContext → LifespanContext
  | LifespanContext.ofApp c => LifespanContext.ofApp c
  | LifespanContext.ofDict d =>
    match d.orchestrator_context with
    | some c => LifespanContext.ofApp c
    | none =>
      match d.session_group, d.sub_processes, d.server_configs with
      | some sg, some sp, some sc => LifespanContext.ofApp (AppContext.mk sg sp sc)
      | _, _, _ => LifespanContext.ofDict d
  | LifespanContext.other s => LifespanContext.other s

/-- The second-stage extraction of `find_mcp_tools` and `use_mcp_tool`
(src/solver_server.py lines 145-154 and 188-197): an AppContext is used
directly; a dict containing `"session_group"` is rebuilt into an
AppContext with empty defaults for the other fields; anything else raises
`TypeError("Unsupported lifespan_context type")`. -/
def extractAppContext (lc : LifespanContext) : Except String AppContext :=
  match resolveLifespanContext lc with
  | LifespanContext.ofApp c => Except.ok c
  | LifespanContext.ofDict d =>
    match d.session_group with
    | some sg => Except.ok (AppContext.mk sg (d.sub_processes.getD []) (d.server_configs.getD []))
    | none => Except.error "Unsupported lifespan_context type"
  | LifespanContext.other _ => Except.error "Unsupported lifespan_context type"

/-- The full `discover_mcp_servers` handler (src/solver_server.py lines
99-129): its second stage reads `server_configs` (and `sub_processes`)
from an AppContext, falls back to `.get` with empty defaults on a dict,
and raises `TypeError("Unsupported lifespan_context type; expected
AppContext or dict")` on anything else. -/
def discover_mcp_servers_tool (lc : LifespanContext) : Except String (List ServerInfo) :=
  match resolveLifespanContext lc with
  | LifespanContext.ofApp c => Except.ok (discover_mcp_servers c.server_configs)
  | LifespanContext.ofDict d => Except.ok (discover_mcp_servers (d.server_configs.getD []))
  | LifespanContext.other _ =>
      Except.error "Unsupported lifespan_context type; expected AppContext or dict"

/-- The full `find_mcp_tools` handler (src/solver_server.py lines
131-172): context extraction followed by the registry filtering. -/
def find_mcp_tools_tool (lc : LifespanContext) (server_name : String) :
    Except String (List ToolInfo) :=
  (extractAppContext lc).bind (fun c => find_mcp_tools c.session_group server_name)

/-- The full `use_mcp_tool` handler (src/solver_server.py lines 174-211):
context extraction followed by the qualified lookup and dispatch. -/
def use_mcp_tool_tool (lc : LifespanContext) (invoke : Invoke)
    (server_name tool_name : String) (arguments : JValue) :
    Except String (String × JValue) :=
  (extractAppContext lc).bind
    (fun c => use_mcp_tool c.session_group invoke server_name tool_name arguments)

/-- What `app_lifespan` yields as the lifespan context (src/solver_server.py
line 71): the AppContext object directly, never a dict. -/
def app_lifespan_yield (manifestFile : Option (List (String × ServerConfig)))
    (connectedWorkers : String → ServerConfig → Worker) : LifespanContext :=
  LifespanContext.ofApp (app_lifespan_startup manifestFile connectedWorkers)

/-- A router request, as received by the orchestrator's three exposed
tools. -/
inductive RouterCall where
  | discover : RouterCall
  | findTools (server_name : String) : RouterCall
  | useTool (server_name tool_name : String) (arguments : JValue) : RouterCall

/-- The lifespan context after one handled router request: the three tool
handlers of src/solver_server.py read fields of the context and assign
nothing to it, so each request leaves the context unchanged (the
request's answer is a pure function of the context, given above). -/
def routerStep (ctx : AppContext) (call : RouterCall) : AppContext :=
  match call with
  | RouterCall.discover => ctx
  | RouterCall.findTools _ => ctx
  | RouterCall.useTool _ _ _ => ctx

/-- The context after a sequence of handled router requests. -/
def routerSteps (ctx : AppContext) (calls : List RouterCall) : AppContext :=
  calls.foldl routerStep ctx

/-- How one spawned worker process behaves during shutdown: whether
`proc.terminate()` itself raises, whether the process is still alive when
the 2-second grace wait expires (`subprocess.TimeoutExpired`), and whether
`proc.kill()` raises. -/
structure ProcBehavior where
  terminateRaises : Bool
  aliveAfterGrace : Bool
  killRaises : Bool
deriving DecidableEq, Repr

/-- An observable step of the shutdown loop. -/
inductive ShutdownStep where
  | terminated (name : String) : ShutdownStep
  | graceWait (name : String) (timeout : Nat) : ShutdownStep
  | killed (name : String) : ShutdownStep
deriving DecidableEq, Repr

/-- The shutdown loop of `app_lifespan` (src/solver_server.py lines
74-82): for each spawned process in order, `proc.terminate()`, then
`proc.wait(timeout=2)` guarded by `except subprocess.TimeoutExpired`, in
which case `proc.kill()`.  Only `TimeoutExpired` is caught: any exception
raised by `terminate()` or `kill()` propagates, aborting the loop — the
returned option names the process whose call raised, and the trace lists
the steps performed before the abort. -/
def shutdownAll : List (String × ProcBehavior) → List ShutdownStep × Option String
  | [] => ([], none)
  | (name, b) :: rest =>
    if b.terminateRaises then ([], some name)
    else if b.aliveAfterGrace then
      if b.killRaises then
        ([ShutdownStep.terminated name, ShutdownStep.graceWait name 2], some name)
      else
        let r := shutdownAll rest
        (ShutdownStep.terminated name :: ShutdownStep.graceWait name 2
          :: ShutdownStep.killed name :: r.1, r.2)
    else
      let r := shutdownAll rest
      (ShutdownStep.terminated name :: ShutdownStep.graceWait name 2 :: r.1, r.2)

/-- First of two manifest entries sharing a name. -/
def cfgFirst : ServerConfig := ServerConfig.mk (some "python") ["a.py"] (some "first")

/-- Second of two manifest entries sharing a name. -/
def cfgSecond : ServerConfig := ServerConfig.mk (some "python") ["b.py"] (some "second")

theorem getKey?_eq_none_of_hasKey_false (fields : List (String × JValue)) (k : String)
    (h : hasKey fields k = false) : getKey? fields k = none := by
  unfold getKey?
  cases hf : fields.find? (fun p => p.1 == k) with
  | none => rfl
  | some p =>
    have hm := List.mem_of_find?_eq_some hf
    have hp := List.find?_some hf
    have hany : hasKey fields k = true := by
      unfold hasKey
      exact List.any_eq_true.mpr ⟨p, hm, hp⟩
    rw [h] at hany
    exact absurd hany (by simp)

theorem listContains_of_infix (pat : List Char) (l : List Char) (h : pat <:+: l) :
    listContains pat l = true := by
  induction l with
  | nil =>
    rw [List.infix_nil] at h
    subst h
    rfl
  | cons c cs ih =>
    rw [listContains]
    rcases List.infix_cons_iff.mp h with hpre | hinf
    · rw [List.isPrefixOf_iff_prefix.mpr hpre]
      rfl
    · rw [ih hinf, Bool.or_true]

theorem strContains_append (a pat b : String) : strContains (a ++ pat ++ b) pat = true := by
  apply listContains_of_infix
  refine ⟨a.data, b.data, ?_⟩
  simp [String.data_append]

/-- C2: the proxy's response unwrapping strips the `structuredContent`
envelope only when the result is a mapping containing that key; it strips
one further level only when the unwrapped value is a mapping whose key set
is exactly `\x7b"result"\x7d`; any value that is not a mapping containing
`structuredContent` — in particular `\x7b"result": 7\x7d` — is returned
unchanged, and the inner unwrap is never applied without the outer
envelope having been present. -/
theorem c2_unwrap_only_recognized_envelopes :
    (∀ v : JValue, isDictWithStructuredContent v = false → unwrapResult v = v)
  ∧ (∀ (fields : List (String × JValue)) (inner : JValue),
      getKey? fields "structuredContent" = some inner →
      innerUnwrapApplies inner = false →
      unwrapResult (JValue.obj fields) = inner)
  ∧ (∀ (fields innerFields : List (String × JValue)) (v : JValue),
      getKey? fields "structuredContent" = some (JValue.obj innerFields) →
      keysExactlyResult innerFields = true →
      getKey? innerFields "result" = some v →
      unwrapResult (JValue.obj fields) = v)
  ∧ unwrapResult (JValue.obj [("result", JValue.num 7)])
      = JValue.obj [("result", JValue.num 7)] := by
  refine ⟨?_, ?_, ?_, rfl⟩
  · intro v h
    cases v with
    | obj fields =>
      rw [unwrapResult, getKey?_eq_none_of_hasKey_false fields "structuredContent" h]
    | null => rfl
    | bool b => rfl
    | num n => rfl
    | str s => rfl
    | arr elems => rfl
  · intro fields inner hsc hinner
    rw [unwrapResult, hsc]
    cases inner with
    | obj innerFields =>
      rw [innerUnwrapApplies] at hinner
      simp [hinner]
    | null => rfl
    | bool b => rfl
    | num n => rfl
    | str s => rfl
    | arr elems => rfl
  · intro fields innerFields v hsc hkeys hres
    rw [unwrapResult, hsc]
    simp [hkeys, hres]

/-- C2 witness: the concrete `\x7b"result": 7\x7d` value, which carries no
`structuredContent` envelope, is left unchanged by the unwrapping. -/
theorem c2_unwrap_witness :
    unwrapResult (JValue.obj [("result", JValue.num 7)])
      = JValue.obj [("result", JValue.num 7)] :=
  c2_unwrap_only_recognized_envelopes.1 (JValue.obj [("result", JValue.num 7)]) (by rfl)

/-- C4 counterexample: on a remote response carrying an `"error"` field the
proxy does raise, but the raised message ("Orchestrator error: ...") does
not contain the target endpoint, contradicting the claim that both failure
modes name the endpoint. -/
theorem c4_counterexample :
    TransportOutcome.failed (TransportOutcome.response jsonRpcErrorData) = true
  ∧ callOrchestrator (TransportOutcome.response jsonRpcErrorData)
      = Except.error "Orchestrator error: \x7b\"code\": -32601, \"message\": \"Method not found\"\x7d"
  ∧ strContains "Orchestrator error: \x7b\"code\": -32601, \"message\": \"Method not found\"\x7d"
      ORCHESTRATOR_URL = false :=
  ⟨rfl, rfl, rfl⟩

/-- C4 (amended): a transport failure raises an error naming both the
endpoint and the cause; a remote response carrying an `"error"` field
raises an error containing the serialized error object (the cause) but not
necessarily the endpoint; and the proxy never returns success when the
remote call failed. -/
theorem c4_failure_handling :
    (∀ exc : String,
      callOrchestrator (TransportOutcome.requestException exc)
        = Except.error ("Failed to communicate with orchestrator at "
            ++ ORCHESTRATOR_URL ++ ": " ++ exc)
      ∧ strContains ("Failed to communicate with orchestrator at "
            ++ ORCHESTRATOR_URL ++ ": " ++ exc) ORCHESTRATOR_URL = true)
  ∧ (∀ data : List (String × JValue), hasKey data "error" = true →
      callOrchestrator (TransportOutcome.response data)
        = Except.error ("Orchestrator error: " ++ jsonDumps (getKeyD data "error"))
      ∧ strContains ("Orchestrator error: " ++ jsonDumps (getKeyD data "error"))
          (jsonDumps (getKeyD data "error")) = true)
  ∧ (∀ o : TransportOutcome, TransportOutcome.failed o = true →
      ∀ v : JValue, callOrchestrator o ≠ Except.ok v) := by
  refine ⟨?_, ?_, ?_⟩
  · intro exc
    constructor
    · rfl
    · have h := strContains_append "Failed to communicate with orchestrator at "
        ORCHESTRATOR_URL (": " ++ exc)
      rw [String.append_assoc] at h
      exact h
  · intro data herr
    constructor
    · rw [callOrchestrator, if_pos herr]
    · have h := strContains_append "Orchestrator error: "
        (jsonDumps (getKeyD data "error")) ""
      rw [String.append_empty] at h
      exact h
  · intro o hfail v
    cases o with
    | requestException exc =>
      intro h
      exact Except.noConfusion h
    | response data =>
      rw [TransportOutcome.failed] at hfail
      rw [callOrchestrator, if_pos hfail]
      intro h
      exact Except.noConfusion h

/-- C4 witness: the amended theorem applied at the concrete failed RPC body
`jsonRpcErrorData`: the call raises and does not return success. -/
theorem c4_failure_handling_witness :
    callOrchestrator (TransportOutcome.response jsonRpcErrorData)
      ≠ Except.ok (JValue.num 5) :=
  c4_failure_handling.2.2 (TransportOutcome.response jsonRpcErrorData) (by rfl) (JValue.num 5)

theorem string_append_cancel_right (a b c : String) (h : a ++ c = b ++ c) : a = b := by
  have hd := congrArg String.data h
  simp [String.data_append] at hd
  exact String.ext hd

theorem mem_toolEntries_iff (g : SessionGroup) (e : String × String × ToolDef) :
    e ∈ toolEntries g ↔ ∃ w ∈ g.workers, ∃ td ∈ w.tools,
      e = (name_hook td.rawName w.name, w.name, td) := by
  unfold toolEntries
  simp only [List.mem_flatten, List.mem_map]
  constructor
  · rintro ⟨l, ⟨w, hw, rfl⟩, hel⟩
    rcases List.mem_map.mp hel with ⟨td, htd, rfl⟩
    exact ⟨w, hw, td, htd, rfl⟩
  · rintro ⟨w, hw, td, htd, rfl⟩
    exact ⟨_, ⟨w, hw, rfl⟩, List.mem_map.mpr ⟨td, htd, rfl⟩⟩

theorem use_mcp_tool_routes_to_owner (g : SessionGroup) (invoke : Invoke) (W : Worker)
    (td : ToolDef) (t : String) (args : JValue)
    (hnodup : ((toolEntries g).map (fun e => e.1)).Nodup)
    (hW : W ∈ g.workers) (htd : td ∈ W.tools) (hraw : td.rawName = t) :
    use_mcp_tool g invoke W.name t args
      = Except.ok (W.name, (invoke W.name t args).structuredContent) := by
  have he1 : (name_hook t W.name, W.name, td) ∈ toolEntries g := by
    rw [← hraw]
    exact (mem_toolEntries_iff g _).mpr ⟨W, hW, td, htd, rfl⟩
  have hsome : ((toolEntries g).find? (fun e => e.1 == W.name ++ "::" ++ t)).isSome := by
    rw [List.find?_isSome]
    exact ⟨_, he1, by simp [name_hook]⟩
  obtain ⟨e, hfind⟩ := Option.isSome_iff_exists.mp hsome
  have hmem := List.mem_of_find?_eq_some hfind
  have hpred := List.find?_some hfind
  have hkey : e.1 = W.name ++ "::" ++ t := by simpa using hpred
  have heq : e = (name_hook t W.name, W.name, td) := by
    apply List.inj_on_of_nodup_map hnodup hmem he1
    simp [hkey, name_hook]
  simp [use_mcp_tool, hfind, heq, name_hook, hraw]

/-- C1: every registered tool is keyed by `ownerWorker ++ "::" ++ rawName`
(the `name_hook` qualified name); for distinct workers sharing a raw tool
name the qualified identities are distinct; and `use_mcp_tool`, which
looks up exactly `server ++ "::" ++ tool` in a registry with unique
qualified names, invokes the tool on the owning worker and no other. -/
theorem c1_qualified_names_route_to_owner :
    (∀ (g : SessionGroup) (e : String × String × ToolDef),
      e ∈ toolEntries g ↔ ∃ w ∈ g.workers, ∃ td ∈ w.tools,
        e = (name_hook td.rawName w.name, w.name, td))
  ∧ (∀ W1 W2 t : String, W1 ≠ W2 → name_hook t W1 ≠ name_hook t W2)
  ∧ (∀ (g : SessionGroup) (invoke : Invoke) (W1 W2 : Worker) (td1 td2 : ToolDef)
      (t : String) (args : JValue),
      ((toolEntries g).map (fun e => e.1)).Nodup →
      W1 ∈ g.workers → W2 ∈ g.workers →
      td1 ∈ W1.tools → td2 ∈ W2.tools →
      td1.rawName = t → td2.rawName = t →
      use_mcp_tool g invoke W1.name t args
        = Except.ok (W1.name, (invoke W1.name t args).structuredContent)
      ∧ use_mcp_tool g invoke W2.name t args
        = Except.ok (W2.name, (invoke W2.name t args).structuredContent)) := by
  refine ⟨mem_toolEntries_iff, ?_, ?_⟩
  · intro W1 W2 t hne heq
    apply hne
    unfold name_hook at heq
    exact string_append_cancel_right _ _ _ (string_append_cancel_right _ _ _ heq)
  · intro g invoke W1 W2 td1 td2 t args hnodup hW1 hW2 htd1 htd2 hraw1 hraw2
    exact ⟨use_mcp_tool_routes_to_owner g invoke W1 td1 t args hnodup hW1 htd1 hraw1,
           use_mcp_tool_routes_to_owner g invoke W2 td2 t args hnodup hW2 htd2 hraw2⟩

/-- C1 witness: on two concrete workers "alpha" and "beta" both exposing a
raw tool "ping", use_mcp_tool on each server name routes to that worker. -/
theorem c1_routing_witness :
    use_mcp_tool twoWorkerGroup nullInvoke "alpha" "ping" JValue.null
      = Except.ok ("alpha", JValue.null)
  ∧ use_mcp_tool twoWorkerGroup nullInvoke "beta" "ping" JValue.null
      = Except.ok ("beta", JValue.null) := by
  have h := c1_qualified_names_route_to_owner.2.2 twoWorkerGroup nullInvoke
    alphaWorker betaWorker pingTool pingTool "ping" JValue.null
    (by decide)
    (by simp [twoWorkerGroup])
    (by simp [twoWorkerGroup])
    (by simp [alphaWorker])
    (by simp [betaWorker])
    rfl rfl
  exact ⟨h.1, h.2⟩

/-- C3: `use_mcp_tool` checks the qualified name against the registry
first: when absent it fails with a NotFound `ValueError` naming the tool
and the server, with the same outcome for every possible worker behaviour
(no worker is contacted); when present it dispatches to the owning entry
and returns the `structuredContent` of the worker's answer.  On the adder
worker, `add` with `a = 2, b = 3` returns 5 and `subtract` fails with
NotFound. -/
theorem c3_use_tool_lookup_then_dispatch :
    (∀ (g : SessionGroup) (invoke invoke' : Invoke) (server tool : String) (args : JValue),
      (toolEntries g).find? (fun e => e.1 == server ++ "::" ++ tool) = none →
      use_mcp_tool g invoke server tool args
        = Except.error ("Tool \x27" ++ tool ++ "\x27 not found on server \x27" ++ server ++ "\x27.")
      ∧ use_mcp_tool g invoke server tool args = use_mcp_tool g invoke' server tool args)
  ∧ (∀ (g : SessionGroup) (invoke : Invoke) (server tool : String) (args : JValue)
      (e : String × String × ToolDef),
      (toolEntries g).find? (fun e => e.1 == server ++ "::" ++ tool) = some e →
      use_mcp_tool g invoke server tool args
        = Except.ok (e.2.1, (invoke e.2.1 e.2.2.rawName args).structuredContent))
  ∧ use_mcp_tool adderGroup adderInvoke "adder" "add"
      (JValue.obj [("a", JValue.num 2), ("b", JValue.num 3)])
      = Except.ok ("adder", JValue.num 5)
  ∧ use_mcp_tool adderGroup adderInvoke "adder" "subtract" (JValue.obj [])
      = Except.error "Tool \x27subtract\x27 not found on server \x27adder\x27." := by
  refine ⟨?_, ?_, rfl, rfl⟩
  · intro g invoke invoke' server tool args hnone
    constructor
    · simp [use_mcp_tool, hnone]
    · simp [use_mcp_tool, hnone]
  · intro g invoke server tool args e hsome
    simp [use_mcp_tool, hsome]

/-- C3 witness: on the concrete adder group the NotFound branch of the
lookup applies to `subtract` under an arbitrary alternative worker
behaviour, giving the same NotFound error. -/
theorem c3_lookup_witness :
    use_mcp_tool adderGroup nullInvoke "adder" "subtract" (JValue.obj [])
      = Except.error "Tool \x27subtract\x27 not found on server \x27adder\x27." :=
  (c3_use_tool_lookup_then_dispatch.1 adderGroup nullInvoke adderInvoke
    "adder" "subtract" (JValue.obj []) rfl).1

/-- C7: `find_mcp_tools` returns exactly the descriptors of registry
entries whose qualified name starts with `server_name ++ "::"`; whenever
that filtered list is empty — unknown server or a server with no tools —
it fails with a NotFound `ValueError` whose message contains the requested
server name; in particular `find_mcp_tools` on "nonexistent" fails and on
"adder" returns the single `add` descriptor. -/
theorem c7_find_tools_prefix_filter_and_notfound :
    (∀ (g : SessionGroup) (server_name : String) (l : List ToolInfo),
      find_mcp_tools g server_name = Except.ok l →
      l = ((toolEntries g).filter (fun e => strStartsWith e.1 (server_name ++ "::"))).map
            (fun e => ToolInfo.mk e.2.2.rawName e.2.2.description e.2.2.inputSchema)
      ∧ l ≠ [])
  ∧ (∀ (g : SessionGroup) (server_name : String),
      (toolEntries g).filter (fun e => strStartsWith e.1 (server_name ++ "::")) = [] →
      find_mcp_tools g server_name
        = Except.error ("No server found with name \x27" ++ server_name
            ++ "\x27 or it has no tools.")
      ∧ strContains ("No server found with name \x27" ++ server_name
            ++ "\x27 or it has no tools.") server_name = true)
  ∧ find_mcp_tools adderGroup "nonexistent"
      = Except.error "No server found with name \x27nonexistent\x27 or it has no tools."
  ∧ find_mcp_tools adderGroup "adder"
      = Except.ok [ToolInfo.mk "add" (some "Adds two integers and returns the sum.")
          (JValue.obj [])] := by
  refine ⟨?_, ?_, rfl, rfl⟩
  · intro g server_name l h
    rw [find_mcp_tools] at h
    by_cases hemp : (((toolEntries g).filter
        (fun e => strStartsWith e.1 (server_name ++ "::"))).map
        (fun e => ToolInfo.mk e.2.2.rawName e.2.2.description e.2.2.inputSchema)).isEmpty
    · simp only [hemp, if_true] at h
      exact absurd h (by simp)
    · simp only [hemp, if_false] at h
      have hl := (Except.ok.injEq _ _).mp h.symm
      refine ⟨hl, ?_⟩
      intro hnil
      rw [hnil] at hl
      rw [← hl] at hemp
      exact hemp rfl
  · intro g server_name hfil
    constructor
    · simp [find_mcp_tools, hfil]
    · exact strContains_append "No server found with name \x27" server_name
        "\x27 or it has no tools."

/-- C7 witness: the NotFound branch applied to the concrete adder group
and the unknown server name "nonexistent". -/
theorem c7_notfound_witness :
    find_mcp_tools adderGroup "nonexistent"
      = Except.error "No server found with name \x27nonexistent\x27 or it has no tools."
  ∧ strContains "No server found with name \x27nonexistent\x27 or it has no tools."
      "nonexistent" = true :=
  c7_find_tools_prefix_filter_and_notfound.2.1 adderGroup "nonexistent" rfl

/-- C5 counterexample: when terminating the first worker raises, the loop
aborts and the second worker is never sent a termination request at all —
errors are not aggregated and the sequence is not attempted for all
workers. -/
theorem c5_counterexample :
    shutdownAll [("w1", ProcBehavior.mk true false false),
                 ("w2", ProcBehavior.mk false false false)]
      = ([], some "w1")
  ∧ ShutdownStep.terminated "w2"
      ∉ (shutdownAll [("w1", ProcBehavior.mk true false false),
                      ("w2", ProcBehavior.mk false false false)]).1 :=
  ⟨rfl, by decide⟩

/-- C5 (amended): provided no `terminate()` or `kill()` call itself
raises, every spawned worker receives a termination request followed by a
wait bounded by the 2-second grace period, and is forcibly killed when
still alive after it, and the loop completes without error; the only
per-worker failure handled is the grace-period timeout — an exception
from `terminate()`/`kill()` aborts the loop, skipping the remaining
workers, with no aggregation of errors. -/
theorem c5_graceful_shutdown_when_no_errors :
    ∀ procs : List (String × ProcBehavior),
      (∀ p ∈ procs, p.2.terminateRaises = false ∧ p.2.killRaises = false) →
      (shutdownAll procs).2 = none
      ∧ (∀ p ∈ procs,
          ShutdownStep.terminated p.1 ∈ (shutdownAll procs).1
          ∧ ShutdownStep.graceWait p.1 2 ∈ (shutdownAll procs).1
          ∧ (p.2.aliveAfterGrace = true → ShutdownStep.killed p.1 ∈ (shutdownAll procs).1)) := by
  intro procs
  induction procs with
  | nil =>
    intro _
    exact ⟨rfl, by simp⟩
  | cons hd tl ih =>
    intro h
    obtain ⟨name, b⟩ := hd
    have hterm : b.terminateRaises = false := (h (name, b) (List.mem_cons_self _ _)).1
    have hkill : b.killRaises = false := (h (name, b) (List.mem_cons_self _ _)).2
    have htl := ih (fun p hp => h p (List.mem_cons_of_mem _ hp))
    cases halive : b.aliveAfterGrace with
    | true =>
      constructor
      · simp [shutdownAll, hterm, hkill, halive, htl.1]
      · intro p hp
        rcases List.mem_cons.mp hp with rfl | hmem
        · refine ⟨?_, ?_, ?_⟩ <;> simp [shutdownAll, hterm, hkill, halive]
        · have hij := htl.2 p hmem
          refine ⟨?_, ?_, ?_⟩
          · simp [shutdownAll, hterm, hkill, halive, hij.1]
          · simp [shutdownAll, hterm, hkill, halive, hij.2.1]
          · intro ha
            simp [shutdownAll, hterm, hkill, halive, hij.2.2 ha]
    | false =>
      constructor
      · simp [shutdownAll, hterm, halive, htl.1]
      · intro p hp
        rcases List.mem_cons.mp hp with rfl | hmem
        · refine ⟨?_, ?_, ?_⟩
          · simp [shutdownAll, hterm, halive]
          · simp [shutdownAll, hterm, halive]
          · intro ha
            rw [halive] at ha
            exact absurd ha (by simp)
        · have hij := htl.2 p hmem
          refine ⟨?_, ?_, ?_⟩
          · simp [shutdownAll, hterm, halive, hij.1]
          · simp [shutdownAll, hterm, halive, hij.2.1]
          · intro ha
            simp [shutdownAll, hterm, halive, hij.2.2 ha]

/-- C5 witness: on two concrete well-behaved workers, one of which is
still alive after the grace period, the loop terminates both, kills the
lingering one, and finishes without error. -/
theorem c5_graceful_shutdown_witness :
    (shutdownAll [("a", ProcBehavior.mk false true false),
                  ("b", ProcBehavior.mk false false false)]).2 = none
  ∧ ShutdownStep.killed "a"
      ∈ (shutdownAll [("a", ProcBehavior.mk false true false),
                      ("b", ProcBehavior.mk false false false)]).1
  ∧ ShutdownStep.terminated "b"
      ∈ (shutdownAll [("a", ProcBehavior.mk false true false),
                      ("b", ProcBehavior.mk false false false)]).1 := by
  have h := c5_graceful_shutdown_when_no_errors
    [("a", ProcBehavior.mk false true false), ("b", ProcBehavior.mk false false false)]
    (by decide)
  refine ⟨h.1, ?_, ?_⟩
  · exact (h.2 ("a", ProcBehavior.mk false true false) (by decide)).2.2 rfl
  · exact (h.2 ("b", ProcBehavior.mk false false false) (by decide)).1

theorem find?_map_replace {α : Type} (m : List (String × α)) (k : String) (v : α)
    (h : m.any (fun p => p.1 == k) = true) :
    (m.map (fun p => if p.1 == k then (k, v) else p)).find? (fun p => p.1 == k)
      = some (k, v) := by
  induction m with
  | nil => simp at h
  | cons p ps ih =>
    by_cases hp : p.1 = k
    · simp [hp]
    · have hps : ps.any (fun p => p.1 == k) = true := by
        simpa [hp] using h
      have hfp : (if p.1 == k then (k, v) else p) = p := by simp [hp]
      rw [List.map_cons, hfp, List.find?_cons_of_neg _ (by simp [hp]), ih hps]

theorem find?_append_of_not_any {α : Type} (m : List (String × α)) (k : String) (v : α)
    (h : m.any (fun p => p.1 == k) = false) :
    (m ++ [(k, v)]).find? (fun p => p.1 == k) = some (k, v) := by
  induction m with
  | nil => simp
  | cons p ps ih =>
    rw [List.any_cons, Bool.or_eq_false_iff] at h
    simp [h.1, ih h.2]

theorem lookup_jsonLoadsObject_last {α : Type} (entries : List (String × α))
    (k : String) (v : α) :
    (jsonLoadsObject (entries ++ [(k, v)])).find? (fun p => p.1 == k) = some (k, v) := by
  rw [jsonLoadsObject, List.foldl_append]
  show (insertLastWins (jsonLoadsObject entries) k v).find? (fun p => p.1 == k) = some (k, v)
  unfold insertLastWins
  cases hany : (jsonLoadsObject entries).any (fun p => p.1 == k) with
  | true =>
    rw [if_pos rfl]
    exact find?_map_replace _ _ _ hany
  | false =>
    rw [if_neg (by simp)]
    exact find?_append_of_not_any _ _ _ hany

theorem keys_insertLastWins {α : Type} (m : List (String × α)) (k : String) (v : α) :
    (insertLastWins m k v).map Prod.fst
      = if m.any (fun p => p.1 == k) then m.map Prod.fst else m.map Prod.fst ++ [k] := by
  unfold insertLastWins
  by_cases h : m.any (fun p => p.1 == k)
  · rw [if_pos h, if_pos h, List.map_map]
    apply List.map_congr_left
    intro p hp
    by_cases hc : p.1 = k
    · simp [hc]
    · simp [hc]
  · rw [if_neg h, if_neg h, List.map_append]
    rfl

theorem nodup_keys_jsonLoadsObject {α : Type} (entries : List (String × α)) :
    ((jsonLoadsObject entries).map Prod.fst).Nodup := by
  suffices h : ∀ m : List (String × α), (m.map Prod.fst).Nodup →
      (((entries.foldl (fun m p => insertLastWins m p.1 p.2) m)).map Prod.fst).Nodup by
    exact h [] (by simp)
  induction entries with
  | nil =>
    intro m hm
    simpa using hm
  | cons e rest ih =>
    intro m hm
    rw [List.foldl_cons]
    apply ih
    rw [keys_insertLastWins]
    by_cases h : m.any (fun p => p.1 == e.1)
    · rw [if_pos h]
      exact hm
    · rw [if_neg h]
      have hnot : e.1 ∉ m.map Prod.fst := by
        intro hmem
        rcases List.mem_map.mp hmem with ⟨p, hp, hfst⟩
        exact h (List.any_eq_true.mpr ⟨p, hp, by simp [hfst]⟩)
      simp [List.nodup_append, hm, hnot]

/-- C8 counterexample: a manifest whose JSON object repeats the worker
name "dup" is not rejected — loading succeeds and yields a single entry,
the second config having silently overwritten the first. -/
theorem c8_counterexample :
    loadManifest [("dup", cfgFirst), ("dup", cfgSecond)] = Except.ok [("dup", cfgSecond)]
  ∧ cfgFirst ≠ cfgSecond :=
  ⟨rfl, by decide⟩

/-- C8 (amended): manifest loading never rejects an input: `json.loads`
builds the dict member by member, so a repeated worker name is silently
collapsed — the resulting mapping has unique names and, for a repeated
name, the value of the last entry. -/
theorem c8_manifest_duplicates_last_wins :
    (∀ entries : List (String × ServerConfig),
      loadManifest entries = Except.ok (jsonLoadsObject entries))
  ∧ (∀ entries : List (String × ServerConfig),
      ((jsonLoadsObject entries).map Prod.fst).Nodup)
  ∧ (∀ (entries : List (String × ServerConfig)) (k : String) (v : ServerConfig),
      (jsonLoadsObject (entries ++ [(k, v)])).find? (fun p => p.1 == k) = some (k, v)) :=
  ⟨fun _ => rfl,
   fun entries => nodup_keys_jsonLoadsObject entries,
   fun entries k v => lookup_jsonLoadsObject_last entries k v⟩

/-- C6: `discover_mcp_servers` yields exactly one `\x7bname,
description\x7d` entry per configured worker, in manifest order; its
answer is independent of the session group and the process map (so of
session liveness); and since the router handlers leave the context
unchanged, the answer after any sequence of handled router calls equals
the answer before them. -/
theorem c6_discover_per_config_liveness_independent :
    (∀ cfgs : List (String × ServerConfig),
      (discover_mcp_servers cfgs).length = cfgs.length
      ∧ (∀ i : Nat, (discover_mcp_servers cfgs)[i]?
          = (cfgs[i]?).map (fun p => ServerInfo.mk p.1 p.2.description)))
  ∧ (∀ (sg sg' : SessionGroup) (sp sp' : List (String × Nat))
      (cfgs : List (String × ServerConfig)),
      discover_mcp_servers_tool (LifespanContext.ofApp (AppContext.mk sg sp cfgs))
        = discover_mcp_servers_tool (LifespanContext.ofApp (AppContext.mk sg' sp' cfgs)))
  ∧ (∀ (ctx : AppContext) (calls : List RouterCall),
      discover_mcp_servers_tool (LifespanContext.ofApp (routerSteps ctx calls))
        = discover_mcp_servers_tool (LifespanContext.ofApp ctx)) := by
  refine ⟨?_, ?_, ?_⟩
  · intro cfgs
    constructor
    · simp [discover_mcp_servers]
    · intro i
      simp [discover_mcp_servers]
  · intro sg sg' sp sp' cfgs
    rfl
  · intro ctx calls
    have h : routerSteps ctx calls = ctx := by
      induction calls with
      | nil => rfl
      | cons c cs ih =>
        rw [routerSteps, List.foldl_cons]
        have hc : routerStep ctx c = ctx := by cases c <;> rfl
        rw [hc]
        simpa [routerSteps] using ih
    rw [h]

/-- C9: with the manifest file absent (`none`), startup succeeds with
zero workers: the configuration map, the spawned-process map, and the
aggregated tool registry are all empty, and `discover_mcp_servers`
subsequently returns the empty list. -/
theorem c9_absent_manifest_zero_workers :
    ∀ connectedWorkers : String → ServerConfig → Worker,
      (app_lifespan_startup none connectedWorkers).server_configs = []
      ∧ (app_lifespan_startup none connectedWorkers).sub_processes = []
      ∧ toolEntries (app_lifespan_startup none connectedWorkers).session_group = []
      ∧ discover_mcp_servers_tool (app_lifespan_yield none connectedWorkers)
          = Except.ok [] := by
  intro connectedWorkers
  exact ⟨rfl, rfl, rfl, rfl⟩

/-- C10: `app_lifespan` always yields an AppContext directly; on such a
context the speculative dict handling of all three handlers is not taken
(resolution and extraction return the AppContext itself unchanged, so the
TypeError branch is unreachable), and each handler computes its answer
from the AppContext's own fields. -/
theorem c10_appcontext_bypasses_dict_fallbacks :
    (∀ (manifestFile : Option (List (String × ServerConfig)))
       (connectedWorkers : String → ServerConfig → Worker),
      ∃ c : AppContext,
        app_lifespan_yield manifestFile connectedWorkers = LifespanContext.ofApp c)
  ∧ (∀ c : AppContext,
      resolveLifespanContext (LifespanContext.ofApp c) = LifespanContext.ofApp c)
  ∧ (∀ c : AppContext,
      extractAppContext (LifespanContext.ofApp c) = Except.ok c)
  ∧ (∀ c : AppContext,
      discover_mcp_servers_tool (LifespanContext.ofApp c)
        = Except.ok (discover_mcp_servers c.server_configs))
  ∧ (∀ (c : AppContext) (server_name : String),
      find_mcp_tools_tool (LifespanContext.ofApp c) server_name
        = find_mcp_tools c.session_group server_name)
  ∧ (∀ (c : AppContext) (invoke : Invoke) (server_name tool_name : String) (args : JValue),
      use_mcp_tool_tool (LifespanContext.ofApp c) invoke server_name tool_name args
        = use_mcp_tool c.session_group invoke server_name tool_name args) :=
  ⟨fun manifestFile connectedWorkers =>
      ⟨app_lifespan_startup manifestFile connectedWorkers, rfl⟩,
   fun _ => rfl, fun _ => rfl, fun _ => rfl,
   fun _ _ => rfl, fun _ _ _ _ _ => rfl⟩
